import Mathlib

/-!
Shallow embedding of `src/whatsapp-mcp-server/client.py`: the retry wrapper
`generate_with_retry` (lines 34-72) and the interactive orchestration loop
`run` (lines 76-186).  Python objects with optional attributes are modelled
as structures with `Option` fields; raised exceptions are modelled as
explicit outcome constructors; the Gemini backend and the MCP tool server
are modelled as oracle functions supplied in an environment.
-/

namespace MCPClient

/-- A Gemini function call part payload: `function_call.name` and
`function_call.args` (the argument mapping, modelled as an association
list of strings). -/
structure FunctionCall where
  name : String
  args : List (String × String)
  deriving DecidableEq, Repr

/-- The payload built by
`types.Part.from_function_response(name=..., response={"result": ...})`:
in this program the response mapping always has the single key `"result"`. -/
structure FunctionResponse where
  name : String
  result : String
  deriving DecidableEq, Repr

/-- One `types.Part`.  The SDK object carries optional attributes; this
program only ever sets one of them per part. -/
structure Part where
  text : Option String
  function_call : Option FunctionCall
  function_response : Option FunctionResponse
  deriving DecidableEq, Repr

/-- `types.Part(text=t)`. -/
def Part.mk_text (t : String) : Part := ⟨some t, none, none⟩

/-- `types.Part(function_call=fc)`. -/
def Part.mk_call (fc : FunctionCall) : Part := ⟨none, some fc, none⟩

/-- `types.Part.from_function_response(name=n, response={"result": r})`. -/
def from_function_response (n : String) (r : String) : Part :=
  ⟨none, none, some ⟨n, r⟩⟩

/-- One `types.Content`: a role string and a list of parts. -/
structure Content where
  role : String
  parts : List Part
  deriving DecidableEq, Repr

/-- One element of `response.candidates`. -/
structure Candidate where
  content : Content
  deriving DecidableEq, Repr

/-- A Gemini generation response, as far as this program inspects it. -/
structure ModelResponse where
  candidates : List Candidate
  deriving DecidableEq, Repr

/-- One structured detail object from the parsed error body
(`error_data["error"]["details"][i]`): its `"@type"` tag and its optional
`"retryDelay"` string. -/
structure ErrorDetail where
  type_tag : String
  retryDelay : Option String
  deriving DecidableEq, Repr

/-- The parsed JSON body of a `ClientError`: `error.status` (the empty
string when absent, matching `.get("status", "")`) and `error.details`
(the empty list when absent, matching `.get("details", [])`). -/
structure ErrorBody where
  status : String
  details : List ErrorDetail
  deriving DecidableEq, Repr

/-- `e.response.json()` either produces a parsed body or itself raises
(client.py lines 47-51). -/
inductive ErrorPayload where
  | parsed (body : ErrorBody)
  | unparseable
  deriving DecidableEq, Repr

/-- Outcome of one `client.models.generate_content` attempt: a response, or
a raised `genai.errors.ClientError` carrying an HTTP response body. -/
inductive AttemptOutcome where
  | ok (r : ModelResponse)
  | clientError (payload : ErrorPayload)
  deriving DecidableEq, Repr

/-- Python `s.strip("s")`: remove `s` characters from both ends. -/
def stripS (s : String) : String :=
  String.mk (((s.toList.dropWhile (fun c => c == 's')).reverse.dropWhile
    (fun c => c == 's')).reverse)

/-- Python surrounding-whitespace removal, as `str.strip()` does. -/
def pyStripChars (l : List Char) : List Char :=
  ((l.dropWhile Char.isWhitespace).reverse.dropWhile Char.isWhitespace).reverse

/-- Python `s.strip()`. -/
def pyStrip (s : String) : String := String.mk (pyStripChars s.toList)

/-- Python `s.lower()` (this program only compares ASCII input with it). -/
def pyLower (s : String) : String := String.mk (s.toList.map Char.toLower)

/-- Decimal digit run to a number; fails on the empty run or a non-digit. -/
def digitsToNat (l : List Char) : Option Nat :=
  if l.isEmpty then none
  else
    l.foldl
      (fun acc c =>
        acc.bind (fun n =>
          if c.isDigit then some (n * 10 + (c.toNat - 48)) else none))
      (some 0)

/-- Python `int(s)` on a decimal string: surrounding whitespace and one
optional sign are accepted, anything else raises (here: `none`). -/
def pyIntParse (s : String) : Option Int :=
  match pyStripChars s.toList with
  | [] => none
  | c :: rest =>
    if c == '-' then (digitsToNat rest).map (fun n => -(n : Int))
    else if c == '+' then (digitsToNat rest).map Int.ofNat
    else (digitsToNat (c :: rest)).map Int.ofNat

/-- The retry-eligible status strings (client.py line 54). -/
def isRateLimited (status : String) : Bool :=
  status == "RESOURCE_EXHAUSTED" || status == "429 RESOURCE_EXHAUSTED" ||
    status == "Too Many Requests"

/-- The first detail tagged `google.rpc.RetryInfo`, as found by the `for`
loop with `break` over `error.details` (client.py lines 57-60). -/
def findRetryInfo (details : List ErrorDetail) : Option ErrorDetail :=
  details.find? (fun d => d.type_tag == "type.googleapis.com/google.rpc.RetryInfo")

/-- The retry-delay computation (client.py lines 55-62): the fallback is 30;
the first RetryInfo detail's `retryDelay` (defaulted to `"30s"` when the key
is missing) is stripped of `s` characters and parsed with `int`; a parse
failure is caught and leaves the fallback in place. -/
def computeRetryDelay (body : ErrorBody) : Int :=
  match findRetryInfo body.details with
  | none => 30
  | some d =>
    match pyIntParse (stripS (d.retryDelay.getD "30s")) with
    | some n => n
    | none => 30

/-- What a whole `generate_with_retry` call does: return a response,
re-raise the `ClientError` of attempt `i`, or fall off the end of the `for`
loop returning Python `None` (only possible when `max_retries = 0`). -/
inductive GenOutput where
  | success (r : ModelResponse)
  | raised (attempt : Nat)
  | fellThrough
  deriving DecidableEq, Repr

/-- Observable trace of one `generate_with_retry` call: its outcome, the
`asyncio.sleep` durations performed in order, and the number of generation
attempts actually made. -/
structure GenTrace where
  output : GenOutput
  sleeps : List Int
  attempts : Nat
  deriving DecidableEq, Repr

/-- The `for attempt in range(max_retries)` loop of `generate_with_retry`
(client.py lines 35-72).  `backend i` is what the `i`-th generation attempt
does; `fuel` is the number of loop iterations remaining, kept equal to
`max_retries - attempt` by the caller. -/
def genRetryGo (backend : Nat → AttemptOutcome) (max_retries : Nat) :
    Nat → Nat → GenTrace
  | 0, _ => ⟨.fellThrough, [], 0⟩
  | fuel + 1, attempt =>
    match backend attempt with
    | .ok r => ⟨.success r, [], 1⟩
    | .clientError .unparseable => ⟨.raised attempt, [], 1⟩
    | .clientError (.parsed body) =>
      if isRateLimited body.status then
        if attempt < max_retries - 1 then
          let rest := genRetryGo backend max_retries fuel (attempt + 1)
          ⟨rest.output, computeRetryDelay body :: rest.sleeps, rest.attempts + 1⟩
        else ⟨.raised attempt, [], 1⟩
      else ⟨.raised attempt, [], 1⟩

/-- `generate_with_retry(client, model, contents, tools, max_retries)`:
run the attempt loop from attempt 0 with `max_retries` iterations. -/
def generate_with_retry (backend : Nat → AttemptOutcome) (max_retries : Nat) :
    GenTrace :=
  genRetryGo backend max_retries max_retries 0

theorem genRetryGo_succ (backend : Nat → AttemptOutcome) (max_retries fuel attempt : Nat) :
    genRetryGo backend max_retries (fuel + 1) attempt =
      match backend attempt with
      | .ok r => ⟨.success r, [], 1⟩
      | .clientError .unparseable => ⟨.raised attempt, [], 1⟩
      | .clientError (.parsed body) =>
        if isRateLimited body.status then
          if attempt < max_retries - 1 then
            let rest := genRetryGo backend max_retries fuel (attempt + 1)
            ⟨rest.output, computeRetryDelay body :: rest.sleeps, rest.attempts + 1⟩
          else ⟨.raised attempt, [], 1⟩
        else ⟨.raised attempt, [], 1⟩ := rfl

theorem genRetryGo_exhaust (backend : Nat → AttemptOutcome) (b : Nat → ErrorBody)
    (m : Nat)
    (hb : ∀ i, i < m → backend i = .clientError (.parsed (b i)))
    (hrl : ∀ i, i < m → isRateLimited (b i).status = true) :
    ∀ k a, a + (k + 1) = m →
      genRetryGo backend m (k + 1) a =
        ⟨.raised (m - 1), (List.range' a k).map (fun i => computeRetryDelay (b i)),
         k + 1⟩ := by
  intro k
  induction k with
  | zero =>
    intro a ha
    have hlt : a < m := by omega
    have hnot : ¬ a < m - 1 := by omega
    have ha' : a = m - 1 := by omega
    rw [genRetryGo_succ, hb a hlt]
    dsimp only
    rw [if_pos (hrl a hlt), if_neg hnot, ha']
    simp
  | succ k ih =>
    intro a ha
    have hlt : a < m := by omega
    have hlt' : a < m - 1 := by omega
    have hrec := ih (a + 1) (by omega)
    rw [genRetryGo_succ, hb a hlt]
    dsimp only
    rw [if_pos (hrl a hlt), if_pos hlt']
    simp only [hrec, List.range'_succ, List.map_cons]

/-- Claim C3: when every attempt fails as a parsed rate-limited error, the
invoker makes exactly `max_retries` attempts, sleeps exactly
`max_retries - 1` times (each time for the delay computed from that
failure's body), and then re-raises the last failure. -/
theorem invoke_rate_limited_retries_then_reraises
    (backend : Nat → AttemptOutcome) (b : Nat → ErrorBody) (m : Nat) (hm : 0 < m)
    (hb : ∀ i, i < m → backend i = .clientError (.parsed (b i)))
    (hrl : ∀ i, i < m → isRateLimited (b i).status = true) :
    generate_with_retry backend m =
      ⟨.raised (m - 1),
       (List.range' 0 (m - 1)).map (fun i => computeRetryDelay (b i)), m⟩ := by
  obtain ⟨k, rfl⟩ : ∃ k, m = k + 1 := ⟨m - 1, by omega⟩
  have h := genRetryGo_exhaust backend b (k + 1) hb hrl k 0 (by omega)
  simpa [generate_with_retry] using h

/-- Rate-limited error body advertising a 5 second retry delay. -/
def wRLBody : ErrorBody :=
  ⟨"RESOURCE_EXHAUSTED",
   [⟨"type.googleapis.com/google.rpc.RetryInfo", some "5s"⟩]⟩

theorem invoke_rate_limited_retries_then_reraises_witness :
    generate_with_retry (fun _ => .clientError (.parsed wRLBody)) 3 =
      ⟨.raised 2, [5, 5], 3⟩ := by
  have h := invoke_rate_limited_retries_then_reraises
    (fun _ => .clientError (.parsed wRLBody)) (fun _ => wRLBody) 3 (by decide)
    (fun i _ => rfl) (fun i _ => rfl)
  rw [h]
  decide

/-- Claim C4: a backend failure whose parsed status is not one of the
recognized rate-limit values is re-raised after a single attempt, with no
sleep. -/
theorem invoke_non_rate_limited_raises_immediately
    (backend : Nat → AttemptOutcome) (body : ErrorBody) (m : Nat) (hm : 0 < m)
    (h0 : backend 0 = .clientError (.parsed body))
    (hrl : isRateLimited body.status = false) :
    generate_with_retry backend m = ⟨.raised 0, [], 1⟩ := by
  obtain ⟨k, rfl⟩ : ∃ k, m = k + 1 := ⟨m - 1, by omega⟩
  simp [generate_with_retry, genRetryGo, h0, hrl]

/-- A non-rate-limited error body. -/
def wBadBody : ErrorBody := ⟨"INVALID_ARGUMENT", []⟩

theorem invoke_non_rate_limited_raises_immediately_witness :
    generate_with_retry (fun _ => .clientError (.parsed wBadBody)) 3 =
      ⟨.raised 0, [], 1⟩ :=
  invoke_non_rate_limited_raises_immediately _ wBadBody 3 (by decide) rfl
    (by decide)

/-- Claim C10: when the failure's HTTP body cannot be parsed as JSON, the
original exception is re-raised after a single attempt, with no sleep —
whatever status the failure may in fact have had, the retry path is only
reachable through a parsed body. -/
theorem invoke_unparseable_body_raises_immediately
    (backend : Nat → AttemptOutcome) (m : Nat) (hm : 0 < m)
    (h0 : backend 0 = .clientError .unparseable) :
    generate_with_retry backend m = ⟨.raised 0, [], 1⟩ := by
  obtain ⟨k, rfl⟩ : ∃ k, m = k + 1 := ⟨m - 1, by omega⟩
  simp [generate_with_retry, genRetryGo, h0]

theorem invoke_unparseable_body_raises_immediately_witness :
    generate_with_retry (fun _ => .clientError .unparseable) 3 =
      ⟨.raised 0, [], 1⟩ :=
  invoke_unparseable_body_raises_immediately _ 3 (by decide) rfl

/-- Claim C5: for a retryable failure the retry proceeds and sleeps for the
computed delay whatever the detail list holds, and the computed delay is the
first RetryInfo detail's `retryDelay` stripped of its `s` suffix when that
parses, and 30 when there is no RetryInfo detail or the parse fails. -/
theorem retry_delay_parsed_or_defaulted
    (backend : Nat → AttemptOutcome) (body : ErrorBody) (r : ModelResponse)
    (hrl : isRateLimited body.status = true)
    (h0 : backend 0 = .clientError (.parsed body))
    (h1 : backend 1 = .ok r) :
    generate_with_retry backend 3 = ⟨.success r, [computeRetryDelay body], 2⟩ ∧
    (∀ d, findRetryInfo body.details = some d →
      ∀ n, pyIntParse (stripS (d.retryDelay.getD "30s")) = some n →
        computeRetryDelay body = n) ∧
    (∀ d, findRetryInfo body.details = some d →
      pyIntParse (stripS (d.retryDelay.getD "30s")) = none →
        computeRetryDelay body = 30) ∧
    (findRetryInfo body.details = none → computeRetryDelay body = 30) := by
  refine ⟨?_, ?_, ?_, ?_⟩
  · simp [generate_with_retry, genRetryGo, h0, h1, hrl]
  · intro d hd n hn
    simp [computeRetryDelay, hd, hn]
  · intro d hd hn
    simp [computeRetryDelay, hd, hn]
  · intro hd
    simp [computeRetryDelay, hd]

/-- Rate-limited error body whose advertised retry delay does not parse. -/
def wOddBody : ErrorBody :=
  ⟨"Too Many Requests", [⟨"type.googleapis.com/google.rpc.RetryInfo", some "soon"⟩]⟩

/-- A plain text model response. -/
def wResp0 : ModelResponse := ⟨[⟨⟨"model", [Part.mk_text "ok"]⟩⟩]⟩

theorem retry_delay_parsed_or_defaulted_witness :
    generate_with_retry
      (fun i => if i == 0 then .clientError (.parsed wOddBody) else .ok wResp0) 3 =
      ⟨.success wResp0, [30], 2⟩ := by
  have h := retry_delay_parsed_or_defaulted
    (fun i => if i == 0 then .clientError (.parsed wOddBody) else .ok wResp0)
    wOddBody wResp0 (by decide) rfl rfl
  rw [h.1]
  decide

/-- One content element of an MCP tool result (`tool_result.content[i]`). -/
structure ToolContentItem where
  text : String
  deriving DecidableEq, Repr

/-- Outcome of `session.call_tool`: a result object, or a raised exception. -/
inductive ToolOutcome where
  | ok (content : List ToolContentItem)
  | err
  deriving DecidableEq, Repr

/-- Outcome of a full `generate_with_retry` call as the loop sees it: a
response, or a (re-)raised exception. -/
inductive GenCallResult where
  | ok (r : ModelResponse)
  | err
  deriving DecidableEq, Repr

/-- The loop's environment: what the model backend answers for a given
conversation list, and what `call_tool` does for a given tool name and
argument mapping. -/
structure Env where
  gen : List Content → GenCallResult
  tool : String → List (String × String) → ToolOutcome

/-- User-visible output lines produced by the loop body. -/
inductive Display where
  | assistant (t : String)
  | toolRequest (name : String) (args : List (String × String))
  | toolFailed (name : String)
  deriving DecidableEq, Repr

/-- How one loop iteration ends: continue with the next input line, `break`
on "exit", or die on an uncaught exception. -/
inductive StepExit where
  | next
  | stop
  | fatal
  deriving DecidableEq, Repr

/-- Observable trace of one loop iteration: the conversation memory after
it, the conversation lists passed to generation calls (in order), the
`call_tool` invocations made, the displayed output, and how it ended. -/
structure StepResult where
  contents : List Content
  genCalls : List (List Content)
  toolCalls : List (String × List (String × String))
  displayed : List Display
  exit : StepExit
  deriving DecidableEq, Repr

/-- Python truthiness of an optional string attribute (`if p.text:`). -/
def pyTruthy (t : Option String) : Bool :=
  match t with
  | some s => !(s == "")
  | none => false

/-- Display of one part in the no-tool branch (client.py lines 180-184):
`if p.text: ... elif p.function_call: ...`. -/
def displayPart (p : Part) : Option Display :=
  if pyTruthy p.text then p.text.map Display.assistant
  else
    match p.function_call with
    | some fc => some (Display.toolRequest fc.name fc.args)
    | none => none

/-- Display of one part of the final response after a tool call (client.py
lines 168-170): only `if p.text:`, there is no function-call notice here. -/
def displayFinalPart (p : Part) : Option Display :=
  if pyTruthy p.text then p.text.map Display.assistant else none

/-- `types.Content(role="user", parts=[types.Part(text=t)])`. -/
def userText (t : String) : Content := ⟨"user", [Part.mk_text t]⟩

/-- `types.Content(role="model", parts=[types.Part(function_call=fc)])`. -/
def modelCall (fc : FunctionCall) : Content := ⟨"model", [Part.mk_call fc]⟩

/-- The user turn wrapping a function response (client.py lines 140-148). -/
def userFunctionResponse (fc : FunctionCall) (result : String) : Content :=
  ⟨"user", [from_function_response fc.name result]⟩

/-- `tool_result.content[0].text if tool_result.content else "No result returned"`. -/
def toolResultText (content : List ToolContentItem) : String :=
  match content with
  | item :: _ => item.text
  | [] => "No result returned"

/-- The tool round-trip `try` block (client.py lines 129-174), entered with
`fc` taken from the first part of the first candidate; `contents1` already
ends with the user's Text turn.  The call/response pair is appended twice:
once by lines 136-148 and once more by lines 151-158.  A raised `call_tool`,
a failed final generation, and an empty final candidate list are all caught
by the `except` clause at line 172, which prints the tool-failure notice. -/
def handleToolCall (env : Env) (contents1 : List Content) (fc : FunctionCall) :
    StepResult :=
  match env.tool fc.name fc.args with
  | .err =>
    ⟨contents1, [], [(fc.name, fc.args)], [.toolFailed fc.name], .next⟩
  | .ok toolContent =>
    let resultText := toolResultText toolContent
    let contents2 := contents1 ++
      [modelCall fc, userFunctionResponse fc resultText,
       modelCall fc, userFunctionResponse fc resultText]
    match env.gen contents2 with
    | .err =>
      ⟨contents2, [contents2], [(fc.name, fc.args)], [.toolFailed fc.name], .next⟩
    | .ok finalResponse =>
      match finalResponse.candidates with
      | [] =>
        ⟨contents2, [contents2], [(fc.name, fc.args)], [.toolFailed fc.name], .next⟩
      | cand :: _ =>
        ⟨contents2 ++ [cand.content], [contents2], [(fc.name, fc.args)],
         cand.content.parts.filterMap displayFinalPart, .next⟩

/-- One iteration of the `while True` loop (client.py lines 106-186), driven
by one input line.  `candidates[0]` or `parts[0]` on an empty list raises an
uncaught `IndexError` here (lines 120-121), ending the process. -/
def runStep (env : Env) (contents : List Content) (line : String) : StepResult :=
  let user_input := pyStrip line
  if pyLower user_input = "exit" then ⟨contents, [], [], [], .stop⟩
  else
    let contents1 := contents ++ [userText user_input]
    match env.gen contents1 with
    | .err => ⟨contents1, [contents1], [], [], .fatal⟩
    | .ok response =>
      match response.candidates with
      | [] => ⟨contents1, [contents1], [], [], .fatal⟩
      | candidate :: _ =>
        match candidate.content.parts with
        | [] => ⟨contents1, [contents1], [], [], .fatal⟩
        | part :: _ =>
          match part.function_call with
          | some fc =>
            let s := handleToolCall env contents1 fc
            ⟨s.contents, contents1 :: s.genCalls, s.toolCalls, s.displayed, s.exit⟩
          | none =>
            ⟨contents1 ++ [candidate.content], [contents1], [],
             candidate.content.parts.filterMap displayPart, .next⟩

/-- Concatenated observable trace of the loop over a finite list of input
lines (the real loop blocks for the next line; a trace that ends with the
loop still running simply stops recording there). -/
structure LoopTrace where
  contents : List Content
  genCalls : List (List Content)
  toolCalls : List (String × List (String × String))
  displayed : List Display
  crashed : Bool
  deriving DecidableEq, Repr

/-- The `while True` loop of `run` (client.py lines 106-186) consuming the
given input lines in order. -/
def runLoop (env : Env) : List String → List Content → LoopTrace
  | [], contents => ⟨contents, [], [], [], false⟩
  | line :: rest, contents =>
    let s := runStep env contents line
    match s.exit with
    | .stop => ⟨s.contents, s.genCalls, s.toolCalls, s.displayed, false⟩
    | .fatal => ⟨s.contents, s.genCalls, s.toolCalls, s.displayed, true⟩
    | .next =>
      let t := runLoop env rest s.contents
      ⟨t.contents, s.genCalls ++ t.genCalls, s.toolCalls ++ t.toolCalls,
       s.displayed ++ t.displayed, t.crashed⟩

/-- Adjacent-turn pairs the backend accepts: not both of role "user". -/
def okPair (a b : Content) : Prop := ¬(a.role = "user" ∧ b.role = "user")

instance : DecidableRel okPair := fun a b =>
  inferInstanceAs (Decidable ¬(a.role = "user" ∧ b.role = "user"))

/-- No user-role entry is immediately preceded by another user-role entry. -/
def noConsecUser (l : List Content) : Prop := List.Chain' okPair l

instance noConsecUserDec : (l : List Content) → Decidable (noConsecUser l)
  | [] => isTrue trivial
  | [a] => isTrue (List.chain'_singleton a)
  | a :: b :: l =>
    have : Decidable (noConsecUser (b :: l)) := noConsecUserDec (b :: l)
    decidable_of_iff (okPair a b ∧ noConsecUser (b :: l)) List.chain'_cons.symm

theorem okPair_of_model_left (a b : Content) (ha : a.role = "model") :
    okPair a b := by
  intro hcon
  rw [ha] at hcon
  exact absurd hcon.1 (by decide)

theorem okPair_of_model_right (a b : Content) (hb : b.role = "model") :
    okPair a b := by
  intro hcon
  rw [hb] at hcon
  exact absurd hcon.2 (by decide)

/-- A well-formed generation response: a first candidate whose content has
role "model" and a nonempty parts list. -/
def respWF (r : ModelResponse) : Bool :=
  match r.candidates.head? with
  | none => false
  | some c => c.content.role == "model" && !c.content.parts.isEmpty

/-- Does any turn of `l` carry a FunctionResponse part for tool `name`? -/
def hasFunctionResponseTurn (name : String) (l : List Content) : Bool :=
  l.any (fun c => c.parts.any (fun q =>
    match q.function_response with
    | some fr => fr.name == name
    | none => false))

/-- Claim C8: an input line whose whitespace-trimmed, lowercased form is
"exit" stops the loop with no generation call issued and no turn appended;
any other line becomes a user Text turn carrying the trimmed text, and that
conversation is what the first generation call of the iteration receives. -/
theorem exit_line_stops_loop (env : Env) (contents : List Content) (line : String) :
    (pyLower (pyStrip line) = "exit" →
      runStep env contents line = ⟨contents, [], [], [], .stop⟩) ∧
    (pyLower (pyStrip line) ≠ "exit" →
      (runStep env contents line).genCalls.head? =
        some (contents ++ [userText (pyStrip line)])) := by
  constructor
  · intro h
    simp [runStep, h]
  · intro h
    cases hg : env.gen (contents ++ [userText (pyStrip line)]) with
    | err => simp [runStep, h, hg]
    | ok r =>
      cases hc : r.candidates with
      | nil => simp [runStep, h, hg, hc]
      | cons cand ct =>
        cases hp : cand.content.parts with
        | nil => simp [runStep, h, hg, hc, hp]
        | cons p pt =>
          cases hfc : p.function_call with
          | none => simp [runStep, h, hg, hc, hp, hfc]
          | some fc => simp [runStep, h, hg, hc, hp, hfc]

/-- A plain text model response used as a concrete backend answer. -/
def wTextResp : ModelResponse := ⟨[⟨⟨"model", [Part.mk_text "hello there"]⟩⟩]⟩

/-- A benign environment: text-only answers, tool calls always succeed. -/
def wEnvText : Env := ⟨fun _ => .ok wTextResp, fun _ _ => .ok [⟨"ok"⟩]⟩

theorem exit_line_stops_loop_witness :
    runStep wEnvText [] "  ExIt  " = ⟨[], [], [], [], .stop⟩ ∧
    (runStep wEnvText [] "hi").genCalls.head? = some [userText "hi"] :=
  ⟨(exit_line_stops_loop wEnvText [] "  ExIt  ").1 (by decide),
   (exit_line_stops_loop wEnvText [] "hi").2 (by decide)⟩

/-- Claim C7: when `call_tool` raises, the iteration displays exactly one
failure notice naming the tool, the store gains only the user's Text turn
(in particular no FunctionResponse turn for the call), the exception is
caught (not fatal), and the loop moves on to the next input. -/
theorem tool_failure_shows_notice_and_appends_nothing
    (env : Env) (contents : List Content) (line : String)
    (r : ModelResponse) (cand : Candidate) (ct : List Candidate)
    (p : Part) (pt : List Part) (fc : FunctionCall)
    (hline : pyLower (pyStrip line) ≠ "exit")
    (hg : env.gen (contents ++ [userText (pyStrip line)]) = .ok r)
    (hc : r.candidates = cand :: ct)
    (hp : cand.content.parts = p :: pt)
    (hfc : p.function_call = some fc)
    (ht : env.tool fc.name fc.args = .err) :
    runStep env contents line =
      ⟨contents ++ [userText (pyStrip line)],
       [contents ++ [userText (pyStrip line)]],
       [(fc.name, fc.args)], [.toolFailed fc.name], .next⟩ ∧
    hasFunctionResponseTurn fc.name (runStep env contents line).contents =
      hasFunctionResponseTurn fc.name contents := by
  have hmain : runStep env contents line =
      ⟨contents ++ [userText (pyStrip line)],
       [contents ++ [userText (pyStrip line)]],
       [(fc.name, fc.args)], [.toolFailed fc.name], .next⟩ := by
    simp [runStep, handleToolCall, hline, hg, hc, hp, hfc, ht]
  refine ⟨hmain, ?_⟩
  rw [hmain]
  simp [hasFunctionResponseTurn, userText, Part.mk_text]

/-- A model response requesting the weather tool. -/
def cexFCResp : ModelResponse :=
  ⟨[⟨⟨"model", [Part.mk_call ⟨"get_weather", [("city", "Paris")]⟩]⟩⟩]⟩

/-- An environment whose tool server always raises on `call_tool`. -/
def cexEnv : Env := ⟨fun _ => .ok cexFCResp, fun _ _ => .err⟩

theorem tool_failure_shows_notice_and_appends_nothing_witness :
    runStep cexEnv [] "weather" =
      ⟨[userText "weather"], [[userText "weather"]],
       [("get_weather", [("city", "Paris")])],
       [.toolFailed "get_weather"], .next⟩ :=
  (tool_failure_shows_notice_and_appends_nothing cexEnv [] "weather"
    cexFCResp ⟨⟨"model", [Part.mk_call ⟨"get_weather", [("city", "Paris")]⟩]⟩⟩ []
    (Part.mk_call ⟨"get_weather", [("city", "Paris")]⟩) []
    ⟨"get_weather", [("city", "Paris")]⟩
    (by decide) rfl rfl rfl rfl rfl).1

/-- Claim C9: when the first part of the first candidate carries text and no
function call, the iteration executes no tool at all, and a function call
carried by any (other) part with falsy text is rendered only as a
tool-request notice. -/
theorem text_response_never_dispatches
    (env : Env) (contents : List Content) (line : String)
    (r : ModelResponse) (cand : Candidate) (ct : List Candidate)
    (p : Part) (pt : List Part)
    (hline : pyLower (pyStrip line) ≠ "exit")
    (hg : env.gen (contents ++ [userText (pyStrip line)]) = .ok r)
    (hc : r.candidates = cand :: ct)
    (hp : cand.content.parts = p :: pt)
    (hfc : p.function_call = none)
    (_htxt : pyTruthy p.text = true) :
    (runStep env contents line).toolCalls = [] ∧
    (∀ q ∈ cand.content.parts, ∀ fc, q.function_call = some fc →
      pyTruthy q.text = false →
      Display.toolRequest fc.name fc.args ∈ (runStep env contents line).displayed) := by
  have hstep : runStep env contents line =
      ⟨(contents ++ [userText (pyStrip line)]) ++ [cand.content],
       [contents ++ [userText (pyStrip line)]], [],
       cand.content.parts.filterMap displayPart, .next⟩ := by
    simp [runStep, hline, hg, hc, hp, hfc]
  rw [hstep]
  refine ⟨rfl, ?_⟩
  intro q hq fc hqfc hqt
  simp only [List.mem_filterMap]
  exact ⟨q, hq, by simp [displayPart, hqt, hqfc]⟩

/-- A response whose first part is text and whose second part carries a
function call (the defensive case of lines 180-184). -/
def wMixedResp : ModelResponse :=
  ⟨[⟨⟨"model",
      [Part.mk_text "I would call a tool",
       Part.mk_call ⟨"send_message", [("to", "Bob")]⟩]⟩⟩]⟩

/-- An environment answering with the mixed response; its tool server raises
on every call, so any dispatch would be observable. -/
def wEnvMixed : Env := ⟨fun _ => .ok wMixedResp, fun _ _ => .err⟩

theorem text_response_never_dispatches_witness :
    (runStep wEnvMixed [] "hi").toolCalls = [] ∧
    Display.toolRequest "send_message" [("to", "Bob")] ∈
      (runStep wEnvMixed [] "hi").displayed := by
  have h := text_response_never_dispatches wEnvMixed [] "hi" wMixedResp
    ⟨⟨"model",
      [Part.mk_text "I would call a tool",
       Part.mk_call ⟨"send_message", [("to", "Bob")]⟩]⟩⟩ []
    (Part.mk_text "I would call a tool")
    [Part.mk_call ⟨"send_message", [("to", "Bob")]⟩]
    (by decide) rfl rfl rfl rfl (by decide)
  exact ⟨h.1, h.2 (Part.mk_call ⟨"send_message", [("to", "Bob")]⟩) (by decide)
    ⟨"send_message", [("to", "Bob")]⟩ rfl (by decide)⟩

/-- Claim C6: on tool success the FunctionResponse turn fed back carries the
first tool-content element's text (or the "No result returned" sentinel for
empty content), and the displayed assistant output comes from a second
generation call whose input conversation contains that FunctionResponse
turn. -/
theorem tool_success_roundtrip
    (env : Env) (contents : List Content) (line : String)
    (r : ModelResponse) (cand : Candidate) (ct : List Candidate)
    (p : Part) (pt : List Part) (fc : FunctionCall)
    (tc : List ToolContentItem) (r2 : ModelResponse) (cand2 : Candidate)
    (ct2 : List Candidate) (c1 c2 : List Content)
    (hline : pyLower (pyStrip line) ≠ "exit")
    (hc1 : c1 = contents ++ [userText (pyStrip line)])
    (hg : env.gen c1 = .ok r)
    (hc : r.candidates = cand :: ct)
    (hp : cand.content.parts = p :: pt)
    (hfc : p.function_call = some fc)
    (ht : env.tool fc.name fc.args = .ok tc)
    (hc2 : c2 = c1 ++
      [modelCall fc, userFunctionResponse fc (toolResultText tc),
       modelCall fc, userFunctionResponse fc (toolResultText tc)])
    (hg2 : env.gen c2 = .ok r2)
    (hcand2 : r2.candidates = cand2 :: ct2) :
    runStep env contents line =
      ⟨c2 ++ [cand2.content], [c1, c2], [(fc.name, fc.args)],
       cand2.content.parts.filterMap displayFinalPart, .next⟩ ∧
    userFunctionResponse fc (toolResultText tc) ∈ c2 ∧
    (∀ item rest, tc = item :: rest → toolResultText tc = item.text) ∧
    (tc = [] → toolResultText tc = "No result returned") := by
  subst hc1
  subst hc2
  refine ⟨?_, by simp, ?_, ?_⟩
  · simp only [List.append_assoc, List.cons_append, List.nil_append] at hg2
    simp [runStep, handleToolCall, hline, hg, hc, hp, hfc, ht, hg2, hcand2]
  · intro item rest hitem
    simp [toolResultText, hitem]
  · intro hnil
    simp [toolResultText, hnil]

/-- The weather function call of the concrete round-trip. -/
def wFC : FunctionCall := ⟨"get_weather", [("city", "Paris")]⟩

/-- The final user-facing answer of the concrete round-trip. -/
def c1FinalResp : ModelResponse :=
  ⟨[⟨⟨"model", [Part.mk_text "It is 22C and sunny in Paris."]⟩⟩]⟩

/-- An environment for one full successful tool round-trip: the first
generation call (conversation of length 1) requests the weather tool, the
tool returns one text item, the second generation call answers in text. -/
def c1Env : Env :=
  ⟨fun cs => if cs.length == 1 then .ok cexFCResp else .ok c1FinalResp,
   fun _ _ => .ok [⟨"22C, sunny"⟩]⟩

theorem tool_success_roundtrip_witness :
    runStep c1Env [] "weather in Paris" =
      ⟨[userText "weather in Paris",
        modelCall wFC, userFunctionResponse wFC "22C, sunny",
        modelCall wFC, userFunctionResponse wFC "22C, sunny",
        ⟨"model", [Part.mk_text "It is 22C and sunny in Paris."]⟩],
       [[userText "weather in Paris"],
        [userText "weather in Paris",
         modelCall wFC, userFunctionResponse wFC "22C, sunny",
         modelCall wFC, userFunctionResponse wFC "22C, sunny"]],
       [("get_weather", [("city", "Paris")])],
       [.assistant "It is 22C and sunny in Paris."], .next⟩ := by
  have h := tool_success_roundtrip c1Env [] "weather in Paris" cexFCResp
    ⟨⟨"model", [Part.mk_call wFC]⟩⟩ [] (Part.mk_call wFC) [] wFC
    [⟨"22C, sunny"⟩] c1FinalResp
    ⟨⟨"model", [Part.mk_text "It is 22C and sunny in Paris."]⟩⟩ []
    [userText "weather in Paris"]
    [userText "weather in Paris",
     modelCall wFC, userFunctionResponse wFC "22C, sunny",
     modelCall wFC, userFunctionResponse wFC "22C, sunny"]
    (by decide) (by decide) rfl rfl rfl rfl rfl (by decide) rfl rfl
  rw [h.1]
  decide

/-- Claim C1 (evaluated at a concrete successful round-trip): after the
round-trip the store holds SIX turns — the user Text turn, then the
model-FunctionCall / user-FunctionResponse pair TWICE, then the final model
Text turn — because client.py appends the pair at lines 136-148 and appends
it again at lines 151-158; the spec's claim of exactly one pair fails. -/
theorem store_after_roundtrip_duplicates_pair :
    (runStep c1Env [] "weather in Paris").contents =
      [userText "weather in Paris",
       modelCall wFC, userFunctionResponse wFC "22C, sunny",
       modelCall wFC, userFunctionResponse wFC "22C, sunny",
       ⟨"model", [Part.mk_text "It is 22C and sunny in Paris."]⟩] ∧
    ((runStep c1Env [] "weather in Paris").contents.countP
      (fun c => c.parts.any (fun q => q.function_call.isSome))) = 2 := by
  exact ⟨by decide, by decide⟩

/-- Claim C2, counterexample: when a tool call fails, the loop drops the
call without appending anything after the user's Text turn, so the next
iteration's generation call receives two consecutive user turns. -/
theorem consecutive_user_turns_after_tool_failure :
    (runLoop cexEnv ["weather", "hello"] []).genCalls =
      [[userText "weather"], [userText "weather", userText "hello"]] ∧
    ¬ noConsecUser [userText "weather", userText "hello"] := by
  exact ⟨by decide, by decide⟩

theorem respWF_spec (r : ModelResponse) (cand : Candidate) (ct : List Candidate)
    (hcand : r.candidates = cand :: ct) (h : respWF r = true) :
    cand.content.role = "model" ∧ cand.content.parts ≠ [] := by
  simp only [respWF, hcand, List.head?_cons, Bool.and_eq_true, beq_iff_eq,
    Bool.not_eq_true'] at h
  refine ⟨h.1, ?_⟩
  intro hnil
  rw [hnil] at h
  simp at h

theorem handleToolCall_benign
    (env : Env)
    (hgen : ∀ cs r, env.gen cs = .ok r → respWF r = true)
    (hgenOk : ∀ cs, env.gen cs ≠ .err)
    (htool : ∀ n a, env.tool n a ≠ .err)
    (contents1 : List Content) (fc : FunctionCall)
    (hc1 : noConsecUser contents1) :
    (∀ cs ∈ (handleToolCall env contents1 fc).genCalls, noConsecUser cs) ∧
    noConsecUser (handleToolCall env contents1 fc).contents ∧
    (∀ c ∈ (handleToolCall env contents1 fc).contents.getLast?, c.role = "model") ∧
    (handleToolCall env contents1 fc).exit ≠ .fatal := by
  cases htoolr : env.tool fc.name fc.args with
  | err => exact absurd htoolr (htool _ _)
  | ok tcont =>
    cases hg2 : env.gen (contents1 ++
        [modelCall fc, userFunctionResponse fc (toolResultText tcont),
         modelCall fc, userFunctionResponse fc (toolResultText tcont)]) with
    | err => exact absurd hg2 (hgenOk _)
    | ok r2 =>
      have hwf2 := hgen _ r2 hg2
      cases hcand2 : r2.candidates with
      | nil => simp [respWF, hcand2] at hwf2
      | cons cand2 ct2 =>
        have h2 := respWF_spec r2 cand2 ct2 hcand2 hwf2
        have hblock : noConsecUser (contents1 ++
            [modelCall fc, userFunctionResponse fc (toolResultText tcont),
             modelCall fc, userFunctionResponse fc (toolResultText tcont)]) := by
          refine List.Chain'.append hc1 ?_ ?_
          · exact List.chain'_cons.2 ⟨okPair_of_model_left _ _ rfl,
              List.chain'_cons.2 ⟨okPair_of_model_right _ _ rfl,
                List.chain'_cons.2 ⟨okPair_of_model_left _ _ rfl,
                  List.chain'_singleton _⟩⟩⟩
          · intro a ha b hb
            simp only [List.head?_cons, Option.mem_def, Option.some.injEq] at hb
            subst hb
            exact okPair_of_model_right _ _ rfl
        have hstep : handleToolCall env contents1 fc =
            ⟨(contents1 ++
               [modelCall fc, userFunctionResponse fc (toolResultText tcont),
                modelCall fc, userFunctionResponse fc (toolResultText tcont)]) ++
              [cand2.content],
             [contents1 ++
               [modelCall fc, userFunctionResponse fc (toolResultText tcont),
                modelCall fc, userFunctionResponse fc (toolResultText tcont)]],
             [(fc.name, fc.args)],
             cand2.content.parts.filterMap displayFinalPart, .next⟩ := by
          simp [handleToolCall, htoolr, hg2, hcand2]
        rw [hstep]
        refine ⟨?_, ?_, ?_, by simp⟩
        · intro cs hcs
          simp only [List.mem_singleton] at hcs
          subst hcs
          exact hblock
        · refine List.Chain'.append hblock (List.chain'_singleton _) ?_
          intro a ha b hb
          simp only [List.head?_cons, Option.mem_def, Option.some.injEq] at hb
          subst hb
          exact okPair_of_model_right _ _ h2.1
        · intro c hcl
          simp only [List.getLast?_concat, Option.mem_def, Option.some.injEq] at hcl
          exact hcl ▸ h2.1

theorem runStep_keeps_alternation
    (env : Env)
    (hgen : ∀ cs r, env.gen cs = .ok r → respWF r = true)
    (hgenOk : ∀ cs, env.gen cs ≠ .err)
    (htool : ∀ n a, env.tool n a ≠ .err)
    (contents : List Content) (line : String)
    (hinv : noConsecUser contents)
    (hlast : ∀ c ∈ contents.getLast?, c.role = "model") :
    (∀ cs ∈ (runStep env contents line).genCalls, noConsecUser cs) ∧
    noConsecUser (runStep env contents line).contents ∧
    (∀ c ∈ (runStep env contents line).contents.getLast?, c.role = "model") ∧
    (runStep env contents line).exit ≠ .fatal := by
  by_cases hexit : pyLower (pyStrip line) = "exit"
  · have hstep : runStep env contents line = ⟨contents, [], [], [], .stop⟩ := by
      simp [runStep, hexit]
    rw [hstep]
    exact ⟨by simp, hinv, hlast, by simp⟩
  · have hc1 : noConsecUser (contents ++ [userText (pyStrip line)]) := by
      refine List.Chain'.append hinv (List.chain'_singleton _) ?_
      intro a ha b hb
      exact okPair_of_model_left a b (hlast a ha)
    cases hg : env.gen (contents ++ [userText (pyStrip line)]) with
    | err => exact absurd hg (hgenOk _)
    | ok r =>
      have hwf := hgen _ r hg
      cases hcand : r.candidates with
      | nil => simp [respWF, hcand] at hwf
      | cons cand ctail =>
        have hwf' := respWF_spec r cand ctail hcand hwf
        cases hp : cand.content.parts with
        | nil => exact absurd hp hwf'.2
        | cons p pt =>
          cases hfc : p.function_call with
          | none =>
            have hstep : runStep env contents line =
                ⟨(contents ++ [userText (pyStrip line)]) ++ [cand.content],
                 [contents ++ [userText (pyStrip line)]], [],
                 cand.content.parts.filterMap displayPart, .next⟩ := by
              simp [runStep, hexit, hg, hcand, hp, hfc]
            rw [hstep]
            refine ⟨?_, ?_, ?_, by simp⟩
            · intro cs hcs
              simp only [List.mem_singleton] at hcs
              subst hcs
              exact hc1
            · refine List.Chain'.append hc1 (List.chain'_singleton _) ?_
              intro a ha b hb
              simp only [List.head?_cons, Option.mem_def, Option.some.injEq] at hb
              subst hb
              exact okPair_of_model_right _ _ hwf'.1
            · intro c hcl
              simp only [List.getLast?_concat, Option.mem_def, Option.some.injEq] at hcl
              exact hcl ▸ hwf'.1
          | some fc =>
            have hstep : runStep env contents line =
                ⟨(handleToolCall env (contents ++ [userText (pyStrip line)]) fc).contents,
                 (contents ++ [userText (pyStrip line)]) ::
                   (handleToolCall env (contents ++ [userText (pyStrip line)]) fc).genCalls,
                 (handleToolCall env (contents ++ [userText (pyStrip line)]) fc).toolCalls,
                 (handleToolCall env (contents ++ [userText (pyStrip line)]) fc).displayed,
                 (handleToolCall env (contents ++ [userText (pyStrip line)]) fc).exit⟩ := by
              simp [runStep, hexit, hg, hcand, hp, hfc]
            obtain ⟨hA, hB, hC, hD⟩ := handleToolCall_benign env hgen hgenOk htool
              (contents ++ [userText (pyStrip line)]) fc hc1
            rw [hstep]
            refine ⟨?_, hB, hC, hD⟩
            intro cs hcs
            rcases List.mem_cons.1 hcs with h | h
            · subst h
              exact hc1
            · exact hA cs h

/-- Claim C2, amended: provided every generation call of the run succeeds
with a well-formed response (first candidate of role "model" with nonempty
parts) and no tool call raises, no conversation list passed to a generation
call has a user turn immediately preceded by another user turn. -/
theorem no_consecutive_user_turns_without_failures
    (env : Env)
    (hgen : ∀ cs r, env.gen cs = .ok r → respWF r = true)
    (hgenOk : ∀ cs, env.gen cs ≠ .err)
    (htool : ∀ n a, env.tool n a ≠ .err)
    (lines : List String) (contents : List Content)
    (hinv : noConsecUser contents)
    (hlast : ∀ c ∈ contents.getLast?, c.role = "model") :
    ∀ cs ∈ (runLoop env lines contents).genCalls, noConsecUser cs := by
  induction lines generalizing contents with
  | nil =>
    intro cs hcs
    simp [runLoop] at hcs
  | cons line rest ih =>
    intro cs hcs
    obtain ⟨h1, h2, h3, h4⟩ :=
      runStep_keeps_alternation env hgen hgenOk htool contents line hinv hlast
    simp only [runLoop] at hcs
    cases hex : (runStep env contents line).exit with
    | stop =>
      rw [hex] at hcs
      exact h1 cs hcs
    | fatal => exact absurd hex h4
    | next =>
      rw [hex] at hcs
      rcases List.mem_append.1 hcs with h | h
      · exact h1 cs h
      · exact ih (runStep env contents line).contents h2 h3 cs h

theorem no_consecutive_user_turns_without_failures_witness :
    noConsecUser
      [userText "hi", ⟨"model", [Part.mk_text "hello there"]⟩, userText "there"] := by
  refine no_consecutive_user_turns_without_failures wEnvText ?_ ?_ ?_
    ["hi", "there"] [] trivial (by simp)
    [userText "hi", ⟨"model", [Part.mk_text "hello there"]⟩, userText "there"] ?_
  · intro cs r h
    injection h with h
    rw [← h]
    decide
  · intro cs
    simp [wEnvText]
  · intro n a
    simp [wEnvText]
  · decide

end MCPClient
